import Mathlib

/-!
Verification development for the Smart-agri frontend client
(`src/services/ArduinoService.ts` and `src/components/HistoricalChart.tsx`).

The TypeScript sources are shallowly embedded: JavaScript numbers that can
flow through the code are modelled by `JSNum` (a finite rational, a signed
infinity, or NaN), raw payload field values by `JSVal` (undefined, null,
number, empty string, or non-empty string together with the result of
JavaScript `Number` coercion on it), and all stateful handlers by explicit
state-passing functions.
-/

/-- A JavaScript number: a finite value (modelled exactly as a rational),
positive or negative infinity, or NaN. -/
inductive JSNum where
  | fin (q : ℚ)
  | posInf
  | negInf
  | nan
deriving DecidableEq, Repr

/-- `true` exactly on finite JavaScript numbers. -/
def JSNum.isFinite : JSNum → Bool
  | .fin _ => true
  | _ => false

/-- `true` exactly on NaN. -/
def JSNum.isNan : JSNum → Bool
  | .nan => true
  | _ => false

/-- A JavaScript value that can appear as a field of an incoming payload
object: `missing` is `undefined` (absent field), `jnull` is `null`,
`jnum n` a number, `jstrEmpty` the empty string, and `jstr n` a non-empty
string whose `Number(...)` coercion yields `n` (`n = .nan` for a
non-numeric string, `.posInf` for `"Infinity"`, and so on). -/
inductive JSVal where
  | missing
  | jnull
  | jnum (n : JSNum)
  | jstrEmpty
  | jstr (n : JSNum)
deriving DecidableEq, Repr

/-- JavaScript `Number(value)` coercion on the modelled payload values:
`Number(undefined) = NaN`, `Number(null) = 0`, `Number("") = 0`, a number
is itself, and a non-empty string parses to the number it denotes. -/
def toNumber : JSVal → JSNum
  | .missing => .nan
  | .jnull => .fin 0
  | .jnum n => n
  | .jstrEmpty => .fin 0
  | .jstr n => n

/-- JavaScript truthiness of the modelled payload values: `undefined`,
`null`, `0`, `NaN` and `""` are falsy; every other number and every
non-empty string (even `"0"`) is truthy. -/
def jsTruthy : JSVal → Bool
  | .missing => false
  | .jnull => false
  | .jnum (.fin q) => !(q == 0)
  | .jnum .nan => false
  | .jnum _ => true
  | .jstrEmpty => false
  | .jstr _ => true

/-- JavaScript `a || b` on payload values. -/
def jsvalOr (a b : JSVal) : JSVal :=
  if jsTruthy a then a else b

/-- `safeNumber` from `ArduinoService.ts` (lines 5-11): `null`, `undefined`
and `''` map to the default, then `Number(value)` is taken and a NaN result
maps to the default.  Infinite results pass through (`isNaN(Infinity)` is
`false`). -/
def safeNumber (value : JSVal) (defaultValue : ℚ) : JSNum :=
  match value with
  | .missing => .fin defaultValue
  | .jnull => .fin defaultValue
  | .jstrEmpty => .fin defaultValue
  | v =>
    match toNumber v with
    | .nan => .fin defaultValue
    | n => n

/-- The nested `npk` object of a payload, with its three fields. -/
structure NPKObj where
  N : JSVal
  P : JSVal
  K : JSVal
deriving DecidableEq, Repr

/-- An object-shaped raw payload as consumed by `validateSensorData`.  The
`npk` field is `some o` when the payload carries a truthy `npk` object
(a falsy or absent `npk` is `none`; a truthy non-object `npk` behaves like
an object with all three fields `undefined`, i.e. `some ⟨.missing, .missing,
.missing⟩`).  `timestamp` is `some s` when the payload carries a truthy
timestamp string `s`. -/
structure RawPayload where
  npk : Option NPKObj
  nitrogen : JSVal
  phosphorus : JSVal
  potassium : JSVal
  moisture_percent : JSVal
  soil_moisture_percent : JSVal
  moisture : JSVal
  lux : JSVal
  lightLevel : JSVal
  ldr : JSVal
  temperature : JSVal
  humidity : JSVal
  waterLevelPercent : JSVal
  waterLevel : JSVal
  fertilizer_level : JSVal
  fertilizerLevel : JSVal
  timestamp : Option String
deriving DecidableEq, Repr

/-- The payload with every field absent. -/
def emptyPayload : RawPayload :=
  ⟨none, .missing, .missing, .missing, .missing, .missing, .missing, .missing,
   .missing, .missing, .missing, .missing, .missing, .missing, .missing,
   .missing, none⟩

/-- `true` exactly on `undefined`, mirroring a `!== undefined` check. -/
def JSVal.isMissing : JSVal → Bool
  | .missing => true
  | _ => false

/-- The normalized `SensorData` record produced by `validateSensorData`. -/
structure SensorData where
  temperature : JSNum
  humidity : JSNum
  moisture : JSNum
  sunlight : JSNum
  nitrogen : JSNum
  phosphorus : JSNum
  potassium : JSNum
  waterLevel : JSNum
  fertilizerLevel : JSNum
  timestamp : String
  deviceId : String
deriving DecidableEq, Repr

/-- `validateSensorData` from `ArduinoService.ts` (lines 14-70).  `now`
stands for `new Date().toISOString()` taken at the call. -/
def validateSensorData (data : RawPayload) (deviceId : String) (now : String) :
    SensorData :=
  let npkVals : JSNum × JSNum × JSNum :=
    match data.npk with
    | some npk => (safeNumber npk.N 0, safeNumber npk.P 0, safeNumber npk.K 0)
    | none =>
        (safeNumber data.nitrogen 0, safeNumber data.phosphorus 0,
         safeNumber data.potassium 0)
  let moisturePercent : JSNum :=
    if !data.moisture_percent.isMissing then
      safeNumber data.moisture_percent 0
    else if !data.soil_moisture_percent.isMissing then
      safeNumber data.soil_moisture_percent 0
    else
      safeNumber data.moisture 0
  let sunlightValue : JSNum :=
    if !data.lux.isMissing then
      safeNumber data.lux 0
    else if !data.lightLevel.isMissing then
      safeNumber data.lightLevel 0
    else if !data.ldr.isMissing then
      safeNumber data.ldr 0
    else
      .fin 0
  { temperature := safeNumber data.temperature 20
    humidity := safeNumber data.humidity 50
    moisture := moisturePercent
    sunlight := sunlightValue
    nitrogen := npkVals.1
    phosphorus := npkVals.2.1
    potassium := npkVals.2.2
    waterLevel := safeNumber (jsvalOr data.waterLevelPercent data.waterLevel) 0
    fertilizerLevel :=
      safeNumber (jsvalOr data.fertilizer_level data.fertilizerLevel) 0
    timestamp := data.timestamp.getD now
    deviceId := deviceId }

/-- `true` when no numeric field of a normalized reading is NaN. -/
def noNan (s : SensorData) : Bool :=
  !s.temperature.isNan && !s.humidity.isNan && !s.moisture.isNan &&
  !s.sunlight.isNan && !s.nitrogen.isNan && !s.phosphorus.isNan &&
  !s.potassium.isNan && !s.waterLevel.isNan && !s.fertilizerLevel.isNan

/-- The two monitored plant slots. -/
inductive PlantType where
  | level1
  | level2
deriving DecidableEq, Repr

/-- JavaScript `x || d` where `x` is a number and `d` a finite default:
`0` and NaN are falsy and give the default. -/
def jsNumOr (x : JSNum) (d : ℚ) : JSNum :=
  match x with
  | .fin q => if q == 0 then .fin d else .fin q
  | .nan => .fin d
  | n => n

/-- Models `o?.field || d` where `o` is a possibly-absent reading:
`undefined || d = d`, otherwise `jsNumOr` on the field value. -/
def optF (o : Option SensorData) (f : SensorData → JSNum) (d : ℚ) : JSNum :=
  match o with
  | none => .fin d
  | some r => jsNumOr (f r) d

/-- `emitCurrentPlantData` from `ArduinoService.ts` (lines 359-407), as the
pure fusion of the two cached per-device readings: `none` when neither
device has a cached reading (no event is emitted), otherwise the combined
reading that is published on the `data` event.  `now` stands for
`new Date().toISOString()` at the fusion instant. -/
def emitCurrentPlantData (e1 e2 : Option SensorData) (pt : PlantType)
    (now : String) : Option SensorData :=
  match e1, e2 with
  | none, none => none
  | _, _ =>
    match pt with
    | .level1 =>
        some
          { temperature := optF e1 (·.temperature) 20
            humidity := optF e1 (·.humidity) 50
            moisture := optF e1 (·.moisture) 0
            sunlight := optF e1 (·.sunlight) 0
            nitrogen := optF e1 (·.nitrogen) 0
            phosphorus := optF e1 (·.phosphorus) 0
            potassium := optF e1 (·.potassium) 0
            waterLevel := optF e1 (·.waterLevel) 0
            fertilizerLevel := optF e2 (·.fertilizerLevel) 0
            timestamp := now
            deviceId := "esp32_1" }
    | .level2 =>
        some
          { temperature := optF e1 (·.temperature) 20
            humidity := optF e1 (·.humidity) 50
            moisture := optF e2 (·.moisture) 0
            sunlight := optF e2 (·.sunlight) 0
            nitrogen := optF e2 (·.nitrogen) 0
            phosphorus := optF e2 (·.phosphorus) 0
            potassium := optF e2 (·.potassium) 0
            waterLevel := optF e1 (·.waterLevel) 0
            fertilizerLevel := optF e2 (·.fertilizerLevel) 0
            timestamp := now
            deviceId := "esp32_2" }

/-- Observable behaviour of one subscriber callback on one published
payload: it either returns normally or throws. -/
inductive HB where
  | ok
  | throws
deriving DecidableEq, Repr

/-- The `callbacks.forEach(callback => callback(data))` loop of `emit`
(`ArduinoService.ts` lines 567-574): callbacks run synchronously in list
order; there is no `try`/`catch`, so the first throwing callback aborts
the iteration and its exception escapes `emit`.  Returns the list of
callbacks actually invoked (in invocation order) and whether an exception
escaped. -/
def runHandlers : List HB → List HB × Bool
  | [] => ([], false)
  | .ok :: t => ((.ok :: (runHandlers t).1), (runHandlers t).2)
  | .throws :: _ => ([.throws], true)

/-- The `listeners` map of the service: event name to the ordered list of
registered subscriber behaviours. -/
def Listeners : Type := List (String × List HB)

/-- Lookup of the callback list for an event (missing key means no
subscribers, as with `listeners.has(event)` returning `false`). -/
def lookupHandlers : List (String × List HB) → String → List HB
  | [], _ => []
  | (e, hs) :: t, event => if e = event then hs else lookupHandlers t event

/-- `on` from `ArduinoService.ts` (lines 548-553): appends the handler to
the event's list, so list order is registration order. -/
def onEvent : List (String × List HB) → String → HB → List (String × List HB)
  | [], event, h => [(event, [h])]
  | (e, hs) :: t, event, h =>
    if e = event then (e, hs ++ [h]) :: t else (e, hs) :: onEvent t event h

/-- `emit` from `ArduinoService.ts` (lines 567-574) on one event name. -/
def emitEvent (ls : List (String × List HB)) (event : String) :
    List HB × Bool :=
  runHandlers (lookupHandlers ls event)

/-- `maxReconnectAttempts` field of the service (line 75). -/
def maxReconnectAttempts : ℕ := 5

/-- `retryDelay` field of the service (line 82), in milliseconds. -/
def retryDelay : ℚ := 5000

/-- The backoff delay the service computes for a given attempt number
(line 418): `min(retryDelay * 1.5^(attempt-1), 20000)`. -/
def backoffDelay (attempt : ℕ) : ℚ :=
  min (retryDelay * (3 / 2 : ℚ) ^ (attempt - 1)) 20000

/-- Observable connection-lifecycle state of the service: the attempt
counter, the `connected` flag, the log of backoff delays passed to
`setTimeout` (in order), the number of `error` events published, and the
log of `connection` event payloads published. -/
structure RetryState where
  reconnectAttempts : ℕ
  connected : Bool
  scheduledDelays : List ℚ
  errorEvents : ℕ
  connectionEvents : List Bool
deriving DecidableEq, Repr

/-- The freshly constructed service (lines 74, 77). -/
def initialRetryState : RetryState :=
  { reconnectAttempts := 0
    connected := false
    scheduledDelays := []
    errorEvents := 0
    connectionEvents := [] }

/-- `handleConnectionError` from `ArduinoService.ts` (lines 409-431):
clears `connected`, publishes `connection{connected:false}`, increments
the attempt counter, and either schedules a retry after the capped
exponential backoff delay (counter still below `maxReconnectAttempts`) or
publishes an `error` event (attempts exhausted, no further retry). -/
def handleConnectionError (st : RetryState) : RetryState :=
  let st :=
    { st with
        connected := false
        connectionEvents := st.connectionEvents ++ [false] }
  let attempts := st.reconnectAttempts + 1
  if attempts < maxReconnectAttempts then
    { st with
        reconnectAttempts := attempts
        scheduledDelays := st.scheduledDelays ++ [backoffDelay attempts] }
  else
    { st with
        reconnectAttempts := attempts
        errorEvents := st.errorEvents + 1 }

/-- Outcome of the guard at the top of `connect()`. -/
inductive ConnectOutcome where
  | rejected
  | attemptStarted
deriving DecidableEq, Repr

/-- The entry guard of `connect()` (lines 96-110): when the attempt counter
has reached `maxReconnectAttempts`, `connect` publishes an `error` event and
returns `false` immediately, without creating a socket and without touching
the attempt counter; otherwise a fresh connection attempt is started. -/
def connectGate (st : RetryState) : ConnectOutcome × RetryState :=
  if st.reconnectAttempts ≥ maxReconnectAttempts then
    (.rejected, { st with errorEvents := st.errorEvents + 1 })
  else
    (.attemptStarted, st)

/-- One failed connection attempt: the `connect()` guard is passed (or the
call is rejected) and, when an attempt was started, it ends in
`handleConnectionError` (connect_error or watchdog timeout). -/
def failedAttempt (st : RetryState) : RetryState :=
  match connectGate st with
  | (.rejected, st') => st'
  | (.attemptStarted, st') => handleConnectionError st'

/-- The run of `n` consecutive failed connection attempts from the fresh
service state. -/
def failedRun : ℕ → RetryState
  | 0 => initialRetryState
  | n + 1 => failedAttempt (failedRun n)

/-- The `Failed` state of the connection state machine: attempts exhausted
and not connected. -/
def isFailed (st : RetryState) : Bool :=
  decide (st.reconnectAttempts ≥ maxReconnectAttempts) && !st.connected

/-- `disconnect` from `ArduinoService.ts` (lines 433-448): clears the
`connected` flag, resets the attempt counter to `0`, drops the socket, and
publishes `connection{connected:false}`. -/
def disconnectCall (st : RetryState) : RetryState :=
  { st with
      connected := false
      reconnectAttempts := 0
      connectionEvents := st.connectionEvents ++ [false] }

/-- The debounce window of `HistoricalChart.tsx` (line 179), in
milliseconds. -/
def debounceWindow : Int := 30000

/-- Debounce bookkeeping of the chart's `data` subscription: the deadline
of the pending `setTimeout`, if any, and the instants at which a chart
recomputation actually fired, in order. -/
structure DebounceState where
  pending : Option Int
  fired : List Int
deriving DecidableEq, Repr

/-- `handleDataUpdate` from `HistoricalChart.tsx` (lines 147-180) observed
at an event arriving at instant `t`: a pending timer whose deadline has
already passed has fired; then `clearTimeout` cancels any still-pending
timer and `setTimeout` schedules the recomputation at `t + 30000`. -/
def handleDataUpdate (st : DebounceState) (t : Int) : DebounceState :=
  let fired :=
    match st.pending with
    | some d => if d ≤ t then st.fired ++ [d] else st.fired
    | none => st.fired
  { pending := some (t + debounceWindow), fired := fired }

/-- The recomputation instants produced by a whole burst of `data` events
at the given instants (in arrival order): after the last event the
remaining pending timer fires. -/
def debounceRun (events : List Int) : List Int :=
  let final := events.foldl handleDataUpdate { pending := none, fired := [] }
  match final.pending with
  | some d => final.fired ++ [d]
  | none => final.fired

/-- The three control actions accepted by `sendCommand`. -/
inductive ControlAction where
  | water
  | light
  | nutrients
deriving DecidableEq, Repr

/-- The service state read and written by `sendCommand`. -/
structure ServiceState where
  connected : Bool
  socketPresent : Bool
  plantType : PlantType
  wateringActive : Bool
  lightActive : Bool
deriving DecidableEq, Repr

/-- Outcome of the `fetch` to the `send-command` endpoint: a response with
`response.ok`, a response without it, or a thrown network error. -/
inductive NetOutcome where
  | okResponse
  | errResponse
  | netFailure
deriving DecidableEq, Repr

/-- Observable result of one `sendCommand` call: the returned boolean, the
service state afterwards, the actions carried by published `controlError`
events, and the number of HTTP requests issued. -/
structure SendResult where
  returned : Bool
  state : ServiceState
  controlErrors : List ControlAction
  httpRequests : ℕ
deriving DecidableEq, Repr

/-- `sendCommand` from `ArduinoService.ts` (lines 467-530): when not
connected (or without a socket) it publishes `controlError` and returns
`false` with no network request; otherwise it issues one request and, on
`response.ok`, toggles the actuator flag for `water`/`light` and returns
`true`; on a non-ok response or a thrown error it publishes `controlError`
and returns `false`. -/
def sendCommand (st : ServiceState) (action : ControlAction)
    (net : NetOutcome) : SendResult :=
  if !st.connected || !st.socketPresent then
    { returned := false, state := st, controlErrors := [action],
      httpRequests := 0 }
  else
    match net with
    | .okResponse =>
        let st' :=
          match action with
          | .water => { st with wateringActive := !st.wateringActive }
          | .light => { st with lightActive := !st.lightActive }
          | .nutrients => st
        { returned := true, state := st', controlErrors := [],
          httpRequests := 1 }
    | .errResponse =>
        { returned := false, state := st, controlErrors := [action],
          httpRequests := 1 }
    | .netFailure =>
        { returned := false, state := st, controlErrors := [action],
          httpRequests := 1 }

/-- Association-list update used to model assignment into a string-keyed
JavaScript object: replaces the value at `k`, or appends the binding. -/
def assocSet {α : Type} : List (String × α) → String → α → List (String × α)
  | [], k, v => [(k, v)]
  | (k', v') :: t, k, v =>
    if k' = k then (k', v) :: t else (k', v') :: assocSet t k v

/-- Association-list lookup modelling property access on a string-keyed
JavaScript object (`none` is `undefined`). -/
def assocGet? {α : Type} : List (String × α) → String → Option α
  | [], _ => none
  | (k', v') :: t, k => if k' = k then some v' else assocGet? t k

/-- The mutable state touched by the `dataUpdate` socket handler: the
per-device current-reading cache and the per-plant historical buffer. -/
structure HistState where
  currentSensorData : List (String × SensorData)
  historicalData : List (String × List SensorData)
deriving DecidableEq, Repr

/-- A `dataUpdate` event payload.  `deviceId` is `none` when the field is
absent or falsy (the handler's `update.deviceId && update.data` guard),
likewise `data`; `plantType` is `none` when absent or falsy (the
`update.plantType || ...` fallback). -/
structure DataUpdate where
  deviceId : Option String
  data : Option RawPayload
  plantType : Option String
deriving Repr

/-- The `dataUpdate` handler from `setupSocketListeners`
(`ArduinoService.ts` lines 234-255): validates the payload, stores it in
the current-reading cache, appends it to the plant's historical buffer and
keeps only the last 100 records (`slice(-100)`).  Events without a truthy
`deviceId` and `data` are ignored. -/
def processDataUpdate (st : HistState) (u : DataUpdate) (now : String) :
    HistState :=
  match u.deviceId, u.data with
  | some devId, some d =>
    let reading := validateSensorData d devId now
    let cur := assocSet st.currentSensorData devId reading
    let pt := u.plantType.getD (if devId = "esp32_1" then "level1" else "level2")
    let existing := (assocGet? st.historicalData pt).getD []
    let appended := existing ++ [reading]
    let capped :=
      if appended.length > 100 then appended.drop (appended.length - 100)
      else appended
    { currentSensorData := cur
      historicalData := assocSet st.historicalData pt capped }
  | _, _ => st

/-- `getHistoricalData` from `ArduinoService.ts` (lines 536-538): the
buffer of the active plant, or the empty array. -/
def getHistoricalData (st : HistState) (activePlant : String) :
    List SensorData :=
  (assocGet? st.historicalData activePlant).getD []

/-- One raw chart point handed to `averageDataPoints`: the value and the
result of `new Date(point.timestamp).getTime()` — `some t` for a parseable
timestamp (epoch milliseconds), `none` when the parse yields NaN. -/
structure RawPoint where
  timestamp : Option Int
  value : ℚ
deriving DecidableEq, Repr

/-- An output point of `averageDataPoints` (`AveragedDataPoint` in
`HistoricalChart.tsx`); `timestamp` is the bucket start in epoch
milliseconds (the code stores its ISO rendering, which round-trips). -/
structure AveragedDataPoint where
  timestamp : Int
  value : ℚ
  count : ℕ
deriving DecidableEq, Repr

/-- The 5-minute bucket width (`HistoricalChart.tsx` line 37). -/
def intervalMs : Int := 300000

/-- `Math.floor(time / intervalMs) * intervalMs` (line 48): floor division
times the width. -/
def bucketKeyOf (t : Int) : Int :=
  t.fdiv intervalMs * intervalMs

/-- One `buckets` map update of `averageDataPoints`: the running
`(key, sum, count)` entries in JavaScript `Map` insertion order; an
existing key accumulates, a new key is appended with `(v, 1)`. -/
def addPoint : List (Int × ℚ × ℕ) → Int → ℚ → List (Int × ℚ × ℕ)
  | [], k, v => [(k, v, 1)]
  | (k', s, c) :: t, k, v =>
    if k' = k then (k', s + v, c + 1) :: t
    else (k', s, c) :: addPoint t k v

/-- The body of the `rawData.forEach` loop: parseable points go to their
bucket, unparseable ones are skipped. -/
def bucketStep (b : List (Int × ℚ × ℕ)) (p : RawPoint) :
    List (Int × ℚ × ℕ) :=
  match p.timestamp with
  | none => b
  | some t => addPoint b (bucketKeyOf t) p.value

/-- The filled `buckets` map after the `forEach` loop. -/
def fillBuckets (raw : List RawPoint) : List (Int × ℚ × ℕ) :=
  raw.foldl bucketStep []

/-- Ordered insertion by bucket timestamp. -/
def insertPoint (p : AveragedDataPoint) :
    List AveragedDataPoint → List AveragedDataPoint
  | [] => [p]
  | q :: t =>
    if p.timestamp ≤ q.timestamp then p :: q :: t else q :: insertPoint p t

/-- The `.sort((a, b) => ...)` step: sorting by bucket timestamp.  Bucket
keys are pairwise distinct, so any comparison sort produces this unique
sorted arrangement; insertion sort is used as the model. -/
def sortPoints : List AveragedDataPoint → List AveragedDataPoint
  | [] => []
  | p :: t => insertPoint p (sortPoints t)

/-- `averageDataPoints` from `HistoricalChart.tsx` (lines 30-77): bucket,
average, sort ascending, and `slice(-60)` (keep the most recent 60). -/
def averageDataPoints (raw : List RawPoint) : List AveragedDataPoint :=
  let pts := (fillBuckets raw).map fun e =>
    { timestamp := e.1
      value := if e.2.2 > 0 then e.2.1 / (e.2.2 : ℚ) else 0
      count := e.2.2 }
  let sorted := sortPoints pts
  sorted.drop (sorted.length - 60)

/-- Whether a raw point's parsed timestamp falls into the bucket with key
`k`. -/
def inBucket (k : Int) (p : RawPoint) : Bool :=
  match p.timestamp with
  | some t => bucketKeyOf t == k
  | none => false

/-- Number of raw input points falling into the bucket with key `k`. -/
def bucketCount (raw : List RawPoint) (k : Int) : ℕ :=
  (raw.filter (inBucket k)).length

/-- Sum of the values of the raw input points in the bucket with key
`k`. -/
def bucketSum (raw : List RawPoint) (k : Int) : ℚ :=
  ((raw.filter (inBucket k)).map RawPoint.value).sum

/-- Lookup of the running `(sum, count)` of a bucket key (`(0, 0)` when the
key has no entry). -/
def bGet : List (Int × ℚ × ℕ) → Int → ℚ × ℕ
  | [], _ => (0, 0)
  | (k', s, c) :: t, k => if k' = k then (s, c) else bGet t k

/-- The keys of the bucket map, in insertion order. -/
def bKeys (b : List (Int × ℚ × ℕ)) : List Int :=
  b.map (·.1)

/-- `true` when a value makes `safeNumber` fall back to its default:
`undefined`, `null`, the empty string, or any value whose `Number`
coercion is NaN. -/
def defaultsTo : JSVal → Bool
  | .missing => true
  | .jnull => true
  | .jstrEmpty => true
  | v => (toNumber v).isNan

/-- A sensor reading whose reported temperature is the physically
meaningful value `0`. -/
def sdTempZero : SensorData :=
  validateSensorData { emptyPayload with temperature := .jnum (.fin 0) }
    "esp32_1" "t0"

/-- A concrete NaN-free esp32_1 reading used as a witness input. -/
def sensor1Sample : SensorData :=
  validateSensorData
    { emptyPayload with
        temperature := .jnum (.fin 25), humidity := .jnum (.fin 60),
        moisture_percent := .jnum (.fin 42), lux := .jnum (.fin 100),
        npk := some ⟨.jnum (.fin 5), .jnum (.fin 2), .jnum (.fin 1)⟩,
        waterLevelPercent := .jnum (.fin 80) }
    "esp32_1" "t0"

/-- A concrete NaN-free esp32_2 reading used as a witness input. -/
def sensor2Sample : SensorData :=
  validateSensorData
    { emptyPayload with fertilizer_level := .jnum (.fin 55) } "esp32_2" "t0"

/-- The payload `{temperature: "Infinity"}` (a JSON-representable string
value). -/
def infinityPayload : RawPayload :=
  { emptyPayload with temperature := .jstr .posInf }

/-- The payload `{waterLevelPercent: 0, waterLevel: 42}`. -/
def zeroPercentPayload : RawPayload :=
  { emptyPayload with
      waterLevelPercent := .jnum (.fin 0), waterLevel := .jnum (.fin 42) }

/-- Resolution chain written from the spec's words: the first listed field
that is present (not `undefined`) wins and is numerically coerced with
default 0; when none is present the result is 0. -/
def firstPresentChain : List JSVal → JSNum
  | [] => .fin 0
  | v :: rest => if v.isMissing then firstPresentChain rest else safeNumber v 0

/-- Resolution written from the amended spec words for the water and
fertilizer families: the percentage-named field wins exactly when it is
truthy, otherwise the legacy-named field is used (default 0). -/
def truthyFirst (a b : JSVal) : JSNum :=
  if jsTruthy a then safeNumber a 0 else safeNumber b 0

/-- The two-point sample of the spec scenario: instants 10s and 60s after
an epoch-aligned bucket boundary, with values 10 and 20 — one 5-minute
bucket. -/
def rawSample : List RawPoint := [⟨some 10000, 10⟩, ⟨some 60000, 20⟩]

/-- Every callback list whose members all return normally is run in full,
in order, with no escaping exception. -/
theorem runHandlers_all_ok (hs : List HB) (h : ∀ x ∈ hs, x = HB.ok) :
    runHandlers hs = (hs, false) := by
  induction hs with
  | nil => rfl
  | cons a t ih =>
    have ha : a = HB.ok := h a (List.mem_cons_self a t)
    subst ha
    have ht := ih fun x hx => h x (List.mem_cons_of_mem _ hx)
    simp [runHandlers, ht]

/-- A callback list whose first throwing member follows only normal ones
runs exactly up to and including the thrower, and the exception escapes. -/
theorem runHandlers_stops (pre post : List HB) (h : ∀ x ∈ pre, x = HB.ok) :
    runHandlers (pre ++ HB.throws :: post) = (pre ++ [HB.throws], true) := by
  induction pre with
  | nil => rfl
  | cons a t ih =>
    have ha : a = HB.ok := h a (List.mem_cons_self a t)
    subst ha
    have ht := ih fun x hx => h x (List.mem_cons_of_mem _ hx)
    simp [runHandlers, ht]

/-- `on` appends the new handler at the end of the event's list, so the
list order seen by `emit` is registration order. -/
theorem lookupHandlers_onEvent (ls : List (String × List HB)) (event : String)
    (h : HB) :
    lookupHandlers (onEvent ls event h) event = lookupHandlers ls event ++ [h] := by
  induction ls with
  | nil => simp [onEvent, lookupHandlers]
  | cons p t ih =>
    obtain ⟨e, hs⟩ := p
    by_cases he : e = event
    · subst he
      simp [onEvent, lookupHandlers]
    · simp [onEvent, lookupHandlers, he, ih]

/-- The concrete backoff delays the formula yields for attempts 1-5 under
the default configuration. -/
theorem backoffDelay_values :
    backoffDelay 1 = 5000 ∧ backoffDelay 2 = 7500 ∧ backoffDelay 3 = 11250 ∧
    backoffDelay 4 = 16875 ∧ backoffDelay 5 = 20000 := by
  refine ⟨?_, ?_, ?_, ?_, ?_⟩ <;> norm_num [backoffDelay, retryDelay, min_def]

/-- The full service state after 5 consecutive failed connection
attempts. -/
theorem failedRun_five :
    failedRun 5 =
      { reconnectAttempts := 5, connected := false,
        scheduledDelays := [5000, 7500, 11250, 16875], errorEvents := 1,
        connectionEvents := [false, false, false, false, false] } := by
  obtain ⟨h1, h2, h3, h4, _⟩ := backoffDelay_values
  have e : failedRun 5 =
      failedAttempt (failedAttempt (failedAttempt (failedAttempt
        (failedAttempt initialRetryState)))) := rfl
  rw [e]
  simp [failedAttempt, connectGate, handleConnectionError, initialRetryState,
        maxReconnectAttempts, h1, h2, h3, h4]

/-- C1 counterexample: a run of 5 consecutive failed connect attempts
schedules only 4 backoff delays, not the claimed 5-element sequence — the
5th failure exhausts the attempts and publishes `error` without scheduling
a further delay. -/
theorem C1_counterexample :
    (failedRun 5).scheduledDelays ≠ [(5000 : ℚ), 7500, 11250, 16875, 20000] := by
  rw [failedRun_five]
  intro h
  exact absurd (congrArg List.length h) (by decide)

/-- C1 (amended): a run of 5 consecutive failed connect attempts under the
default configuration schedules exactly the 4 backoff delays
`[5000, 7500, 11250, 16875]` ms (one between each pair of consecutive
attempts, each equal to `min(5000 × 1.5^(k-1), 20000)` for `k = 1..4`,
non-decreasing and never above the cap; the formula at `k = 5` would give
the cap `20000` but no 5th delay is scheduled), and the run ends in the
`Failed` state with exactly one `error` event published. -/
theorem C1_backoff_run :
    (failedRun 5).scheduledDelays = [(5000 : ℚ), 7500, 11250, 16875] ∧
    (failedRun 5).scheduledDelays =
      [backoffDelay 1, backoffDelay 2, backoffDelay 3, backoffDelay 4] ∧
    List.Chain' (· ≤ ·) (failedRun 5).scheduledDelays ∧
    ((failedRun 5).scheduledDelays.all fun d => d ≤ 20000) = true ∧
    backoffDelay 5 = 20000 ∧
    isFailed (failedRun 5) = true ∧
    (failedRun 5).errorEvents = 1 := by
  obtain ⟨h1, h2, h3, h4, h5⟩ := backoffDelay_values
  rw [failedRun_five]
  refine ⟨rfl, ?_, ?_, ?_, h5, rfl, rfl⟩
  · rw [h1, h2, h3, h4]
  · simp only [List.chain'_cons, List.chain'_singleton, and_true]
    exact ⟨by decide, by decide, by decide⟩
  · decide

/-- C2 counterexample: from the `Failed` state (5 exhausted attempts), a
further external call to `connect()` is rejected immediately — the attempt
counter stays at 5 (it is not reset to 0) and another `error` event is
published instead of a fresh connection attempt. -/
theorem C2_counterexample :
    (connectGate (failedRun 5)).1 = ConnectOutcome.rejected ∧
    ((connectGate (failedRun 5)).2).reconnectAttempts = 5 ∧
    ((connectGate (failedRun 5)).2).errorEvents = (failedRun 5).errorEvents + 1 := by
  decide

/-- C2 (amended): in the `Failed` state a call to `connect()` does not
reset the attempt counter — it fails immediately, leaving the counter
unchanged and publishing one more `error` event.  The counter is reset to
zero by `disconnect()`, after which `connect()` starts a fresh connection
attempt. -/
theorem C2_connect_after_failed (st : RetryState) (h : isFailed st = true) :
    (connectGate st).1 = ConnectOutcome.rejected ∧
    (connectGate st).2.reconnectAttempts = st.reconnectAttempts ∧
    (connectGate st).2.errorEvents = st.errorEvents + 1 ∧
    (disconnectCall st).reconnectAttempts = 0 ∧
    (connectGate (disconnectCall st)).1 = ConnectOutcome.attemptStarted := by
  have h5 : st.reconnectAttempts ≥ maxReconnectAttempts := by
    simp only [isFailed, Bool.and_eq_true, decide_eq_true_eq] at h
    exact h.1
  refine ⟨?_, ?_, ?_, rfl, ?_⟩
  · simp [connectGate, h5]
  · simp [connectGate, h5]
  · simp [connectGate, h5]
  · simp [connectGate, disconnectCall, maxReconnectAttempts]

/-- Witness for `C2_connect_after_failed` at the state reached by 5
consecutive failed attempts. -/
theorem C2_connect_after_failed_witness :
    (connectGate (failedRun 5)).2.reconnectAttempts =
      (failedRun 5).reconnectAttempts ∧
    (disconnectCall (failedRun 5)).reconnectAttempts = 0 ∧
    (connectGate (disconnectCall (failedRun 5))).1 =
      ConnectOutcome.attemptStarted := by
  have h := C2_connect_after_failed (failedRun 5) (by decide)
  exact ⟨h.2.1, h.2.2.2.1, h.2.2.2.2⟩

/-- C3 counterexample: with two registered subscribers of which the first
throws, `publish` invokes only the first — the second registered
subscriber is never invoked, so a throwing subscriber does prevent the
remaining subscribers from running. -/
theorem C3_counterexample :
    emitEvent [("data", [HB.throws, HB.ok])] "data" = ([HB.throws], true) ∧
    HB.ok ∉ (emitEvent [("data", [HB.throws, HB.ok])] "data").1 := by
  decide

/-- C3 (amended): `publish` invokes the currently registered subscribers
synchronously in registration order (`on` appends, so list order is
registration order), and when none throws all of them run exactly once;
but there is no exception isolation: a throwing subscriber aborts the
iteration, so the subscribers registered after the first throwing one are
not invoked (and the thrower is not retried) and the exception escapes
`publish`. -/
theorem C3_emit_order_and_abort (ls : List (String × List HB)) (event : String) :
    ((∀ x ∈ lookupHandlers ls event, x = HB.ok) →
      emitEvent ls event = (lookupHandlers ls event, false)) ∧
    (∀ pre post, lookupHandlers ls event = pre ++ HB.throws :: post →
      (∀ x ∈ pre, x = HB.ok) →
      emitEvent ls event = (pre ++ [HB.throws], true)) ∧
    (∀ h, lookupHandlers (onEvent ls event h) event =
      lookupHandlers ls event ++ [h]) := by
  refine ⟨?_, ?_, ?_⟩
  · intro hok
    exact runHandlers_all_ok _ hok
  · intro pre post heq hok
    show runHandlers (lookupHandlers ls event) = _
    rw [heq]
    exact runHandlers_stops pre post hok
  · intro h
    exact lookupHandlers_onEvent ls event h

/-- Witness for `C3_emit_order_and_abort`: three subscribers of which the
middle one throws; exactly the first two are invoked, in order. -/
theorem C3_emit_order_and_abort_witness :
    emitEvent [("data", [HB.ok, HB.throws, HB.ok])] "data" =
      ([HB.ok, HB.throws], true) := by
  have h :=
    (C3_emit_order_and_abort [("data", [HB.ok, HB.throws, HB.ok])] "data").2.1
      [HB.ok] [HB.ok] (by decide) (by decide)
  simpa using h

/-- C8: for every command action, calling `sendCommand` while not
connected returns `false`, publishes exactly one `controlError` event,
issues no HTTP request, and leaves the whole service state — in
particular `wateringActive` and `lightActive` — unchanged, regardless of
what the network would have answered. -/
theorem C8_sendCommand_disconnected (st : ServiceState)
    (action : ControlAction) (net : NetOutcome) (h : st.connected = false) :
    sendCommand st action net =
      { returned := false, state := st, controlErrors := [action],
        httpRequests := 0 } := by
  simp [sendCommand, h]

/-- Witness for `C8_sendCommand_disconnected` on `sendCommand('water')`
while disconnected. -/
theorem C8_sendCommand_disconnected_witness :
    sendCommand
        { connected := false, socketPresent := true, plantType := .level1,
          wateringActive := true, lightActive := false }
        ControlAction.water NetOutcome.okResponse =
      { returned := false,
        state := { connected := false, socketPresent := true,
                   plantType := .level1, wateringActive := true,
                   lightActive := false },
        controlErrors := [ControlAction.water], httpRequests := 0 } :=
  C8_sendCommand_disconnected _ _ _ rfl

/-- While events keep arriving less than one debounce window apart, the
pending timer never fires: the fold only replaces the pending deadline and
leaves the fired list untouched. -/
theorem debounce_fold_quiet (ts : List Int) : ∀ (t0 : Int) (fired0 : List Int),
    List.Chain (fun a b => a ≤ b ∧ b - a < debounceWindow) t0 ts →
    ts.foldl handleDataUpdate
        { pending := some (t0 + debounceWindow), fired := fired0 } =
      { pending := some ((t0 :: ts).getLast (List.cons_ne_nil _ _) +
          debounceWindow),
        fired := fired0 } := by
  induction ts with
  | nil =>
    intro t0 fired0 _
    simp [List.getLast]
  | cons t1 ts' ih =>
    intro t0 fired0 hch
    rcases hch with _ | ⟨⟨hle, hlt⟩, hch'⟩
    have hnf : ¬(t0 + debounceWindow ≤ t1) := by omega
    have hstep : handleDataUpdate
        { pending := some (t0 + debounceWindow), fired := fired0 } t1 =
        { pending := some (t1 + debounceWindow), fired := fired0 } := by
      simp [handleDataUpdate, hnf]
    rw [List.foldl_cons, hstep, ih t1 fired0 hch']
    simp [List.getLast_cons_cons]

/-- `safeNumber` never returns NaN. -/
theorem safeNumber_not_nan (v : JSVal) (d : ℚ) :
    (safeNumber v d).isNan = false := by
  cases v with
  | missing => rfl
  | jnull => rfl
  | jstrEmpty => rfl
  | jnum n => cases n <;> rfl
  | jstr n => cases n <;> rfl

/-- On defaulting values, `safeNumber` returns exactly the default. -/
theorem safeNumber_of_defaultsTo (v : JSVal) (d : ℚ)
    (h : defaultsTo v = true) : safeNumber v d = .fin d := by
  cases v with
  | missing => rfl
  | jnull => rfl
  | jstrEmpty => rfl
  | jnum n => cases n <;> simp_all [defaultsTo, toNumber, JSNum.isNan, safeNumber]
  | jstr n => cases n <;> simp_all [defaultsTo, toNumber, JSNum.isNan, safeNumber]

/-- `x || d` on a non-NaN number: the default exactly when `x` is `0`. -/
theorem jsNumOr_of_not_nan (x : JSNum) (d : ℚ) (h : x.isNan = false) :
    jsNumOr x d = if x = JSNum.fin 0 then JSNum.fin d else x := by
  cases x with
  | fin q =>
    by_cases hq : q = 0 <;> simp [jsNumOr, hq]
  | posInf => rfl
  | negInf => rfl
  | nan => simp [JSNum.isNan] at h

/-- `x || 0` is the identity on non-NaN numbers. -/
theorem jsNumOr_zero_of_not_nan (x : JSNum) (h : x.isNan = false) :
    jsNumOr x 0 = x := by
  rw [jsNumOr_of_not_nan x 0 h]
  by_cases hx : x = JSNum.fin 0 <;> simp [hx]

/-- C4 counterexample: with active plant level1 and an esp32_1 reading
whose temperature is `0`, the combined reading's temperature is `20`
(the JavaScript `||` fallback), not the present value `0` — so
temperature is not taken from the esp32_1 reading "including when the
value is 0". -/
theorem C4_counterexample :
    sdTempZero.temperature = JSNum.fin 0 ∧
    (emitCurrentPlantData (some sdTempZero) none PlantType.level1 "t1").map
        (·.temperature) = some (JSNum.fin 20) ∧
    JSNum.fin 20 ≠ JSNum.fin 0 := by
  decide

/-- C4 (amended): the combiner emits nothing exactly when both cached
readings are absent; fusion uses JavaScript `||`, so a falsy (`0` or NaN)
source value is replaced by the fallback (20 for temperature, 50 for
humidity, 0 otherwise).  For NaN-free readings this changes only
temperature and humidity (a present `0` becomes 20 resp. 50); all
0-default fields pass through unchanged.  With active plant level1, an
esp32_1 reading present and esp32_2 absent, `fertilizerLevel` is `0`,
`timestamp` is the fusion instant, and moisture, sunlight, NPK and water
level come from the esp32_1 reading; with both readings present,
moisture/sunlight/NPK come from the plant's assigned device, water level
from esp32_1 and fertilizer level from esp32_2. -/
theorem C4_combined_sourcing (s1 s2 : SensorData) (now : String)
    (h1 : noNan s1 = true) (h2 : noNan s2 = true) :
    (∀ (e1 e2 : Option SensorData) (pt : PlantType) (n : String),
        emitCurrentPlantData e1 e2 pt n = none ↔ e1 = none ∧ e2 = none) ∧
    (∃ c, emitCurrentPlantData (some s1) none PlantType.level1 now = some c ∧
        c.fertilizerLevel = JSNum.fin 0 ∧
        c.moisture = s1.moisture ∧ c.sunlight = s1.sunlight ∧
        c.nitrogen = s1.nitrogen ∧ c.phosphorus = s1.phosphorus ∧
        c.potassium = s1.potassium ∧ c.waterLevel = s1.waterLevel ∧
        c.temperature =
          (if s1.temperature = JSNum.fin 0 then JSNum.fin 20
           else s1.temperature) ∧
        c.humidity =
          (if s1.humidity = JSNum.fin 0 then JSNum.fin 50 else s1.humidity) ∧
        c.timestamp = now ∧ c.deviceId = "esp32_1") ∧
    (∃ c, emitCurrentPlantData (some s1) (some s2) PlantType.level2 now =
          some c ∧
        c.moisture = s2.moisture ∧ c.sunlight = s2.sunlight ∧
        c.nitrogen = s2.nitrogen ∧ c.phosphorus = s2.phosphorus ∧
        c.potassium = s2.potassium ∧ c.waterLevel = s1.waterLevel ∧
        c.fertilizerLevel = s2.fertilizerLevel ∧
        c.temperature =
          (if s1.temperature = JSNum.fin 0 then JSNum.fin 20
           else s1.temperature) ∧
        c.humidity =
          (if s1.humidity = JSNum.fin 0 then JSNum.fin 50 else s1.humidity) ∧
        c.timestamp = now ∧ c.deviceId = "esp32_2") := by
  simp only [noNan, Bool.and_eq_true, Bool.not_eq_true'] at h1 h2
  obtain ⟨⟨⟨⟨⟨⟨⟨⟨ht1, hh1⟩, hm1⟩, hs1⟩, hn1⟩, hp1⟩, hk1⟩, hw1⟩, hf1⟩ := h1
  obtain ⟨⟨⟨⟨⟨⟨⟨⟨ht2, hh2⟩, hm2⟩, hs2⟩, hn2⟩, hp2⟩, hk2⟩, hw2⟩, hf2⟩ := h2
  refine ⟨?_, ?_, ?_⟩
  · intro e1 e2 pt n
    cases e1 <;> cases e2 <;> cases pt <;>
      simp [emitCurrentPlantData]
  · refine ⟨_, rfl, rfl, ?_, ?_, ?_, ?_, ?_, ?_, ?_, ?_, rfl, rfl⟩ <;>
      simp [optF, jsNumOr_zero_of_not_nan, jsNumOr_of_not_nan, *] <;>
      exact fun h => h.symm
  · refine ⟨_, rfl, ?_, ?_, ?_, ?_, ?_, ?_, ?_, ?_, ?_, rfl, rfl⟩ <;>
      simp [optF, jsNumOr_zero_of_not_nan, jsNumOr_of_not_nan, *] <;>
      exact fun h => h.symm

/-- Witness for `C4_combined_sourcing`: with level1 active, a concrete
esp32_1 reading present and esp32_2 absent, the combined reading exists,
its fertilizer level is 0 and moisture and water level come from the
esp32_1 reading. -/
theorem C4_combined_sourcing_witness :
    (emitCurrentPlantData (some sensor1Sample) none PlantType.level1 "t1").map
        (·.fertilizerLevel) = some (JSNum.fin 0) ∧
    (emitCurrentPlantData (some sensor1Sample) none PlantType.level1 "t1").map
        (·.moisture) = some sensor1Sample.moisture ∧
    (emitCurrentPlantData (some sensor1Sample) none PlantType.level1 "t1").map
        (·.waterLevel) = some sensor1Sample.waterLevel := by
  obtain ⟨c, hc, hf, hm, hs, hn, hp, hk, hw, hT, hH, hts, hdev⟩ :=
    (C4_combined_sourcing sensor1Sample sensor2Sample "t1" (by decide)
      (by decide)).2.1
  rw [hc]
  refine ⟨by simp [hf], by simp [hm], by simp [hw]⟩

/-- `(if c then a else b)` is not NaN when neither branch is. -/
theorem isNan_ite (c : Prop) [Decidable c] (a b : JSNum)
    (ha : a.isNan = false) (hb : b.isNan = false) :
    (if c then a else b).isNan = false := by
  split <;> assumption

/-- No numeric field of the normalizer's output is ever NaN. -/
theorem validateSensorData_noNan (p : RawPayload) (dev t : String) :
    noNan (validateSensorData p dev t) = true := by
  obtain ⟨npk, nit, phos, pot, mp, smp, moi, lx, ll, ld, temp, hum, wlp, wl,
    fl, fert, ts⟩ := p
  cases npk <;>
    simp only [noNan, validateSensorData, Bool.and_eq_true,
      Bool.not_eq_true'] <;>
    refine ⟨⟨⟨⟨⟨⟨⟨⟨?_, ?_⟩, ?_⟩, ?_⟩, ?_⟩, ?_⟩, ?_⟩, ?_⟩, ?_⟩ <;>
    (repeat' split) <;>
    first
      | exact safeNumber_not_nan _ _
      | rfl

/-- C6 counterexample: the payload `{temperature: "Infinity"}` normalizes
to an infinite (non-finite) temperature — `Number("Infinity")` is
`Infinity`, which passes the `isNaN` check in `safeNumber` — so numeric
fields of the normalizer's output are not always finite. -/
theorem C6_counterexample :
    ((validateSensorData infinityPayload "esp32_1" "t0").temperature).isFinite
      = false := by
  decide

/-- C6 (amended): no numeric field of the normalizer's output is ever NaN,
and a missing, null, empty, or non-numeric source value is replaced by the
documented fallback — 20 for temperature, 50 for humidity, 0 for every
other numeric field (for a chained field family, whenever every
contributing source value defaults) — but finiteness is not guaranteed: a
source value whose `Number` coercion is ±Infinity passes through. -/
theorem C6_normalizer_defaults (p : RawPayload) (dev t : String) :
    noNan (validateSensorData p dev t) = true ∧
    (defaultsTo p.temperature = true →
      (validateSensorData p dev t).temperature = .fin 20) ∧
    (defaultsTo p.humidity = true →
      (validateSensorData p dev t).humidity = .fin 50) ∧
    (defaultsTo p.moisture_percent = true →
      defaultsTo p.soil_moisture_percent = true →
      defaultsTo p.moisture = true →
      (validateSensorData p dev t).moisture = .fin 0) ∧
    (defaultsTo p.lux = true → defaultsTo p.lightLevel = true →
      defaultsTo p.ldr = true →
      (validateSensorData p dev t).sunlight = .fin 0) ∧
    (p.npk = none → defaultsTo p.nitrogen = true →
      (validateSensorData p dev t).nitrogen = .fin 0) ∧
    (p.npk = none → defaultsTo p.phosphorus = true →
      (validateSensorData p dev t).phosphorus = .fin 0) ∧
    (p.npk = none → defaultsTo p.potassium = true →
      (validateSensorData p dev t).potassium = .fin 0) ∧
    (∀ o, p.npk = some o → defaultsTo o.N = true →
      (validateSensorData p dev t).nitrogen = .fin 0) ∧
    (∀ o, p.npk = some o → defaultsTo o.P = true →
      (validateSensorData p dev t).phosphorus = .fin 0) ∧
    (∀ o, p.npk = some o → defaultsTo o.K = true →
      (validateSensorData p dev t).potassium = .fin 0) ∧
    (defaultsTo p.waterLevelPercent = true → defaultsTo p.waterLevel = true →
      (validateSensorData p dev t).waterLevel = .fin 0) ∧
    (defaultsTo p.fertilizer_level = true →
      defaultsTo p.fertilizerLevel = true →
      (validateSensorData p dev t).fertilizerLevel = .fin 0) := by
  obtain ⟨npk, nit, phos, pot, mp, smp, moi, lx, ll, ld, temp, hum, wlp, wl,
    fl, fert, ts⟩ := p
  refine ⟨validateSensorData_noNan _ dev t, ?_, ?_, ?_, ?_, ?_, ?_, ?_, ?_,
    ?_, ?_, ?_, ?_⟩
  · intro h
    exact safeNumber_of_defaultsTo _ _ h
  · intro h
    exact safeNumber_of_defaultsTo _ _ h
  · intro h1 h2 h3
    simp only [validateSensorData]
    (repeat' split) <;>
      first
        | exact safeNumber_of_defaultsTo _ _ h1
        | exact safeNumber_of_defaultsTo _ _ h2
        | exact safeNumber_of_defaultsTo _ _ h3
  · intro h1 h2 h3
    simp only [validateSensorData]
    (repeat' split) <;>
      first
        | exact safeNumber_of_defaultsTo _ _ h1
        | exact safeNumber_of_defaultsTo _ _ h2
        | exact safeNumber_of_defaultsTo _ _ h3
        | rfl
  · intro hn h
    subst hn
    exact safeNumber_of_defaultsTo _ _ h
  · intro hn h
    subst hn
    exact safeNumber_of_defaultsTo _ _ h
  · intro hn h
    subst hn
    exact safeNumber_of_defaultsTo _ _ h
  · intro o hn h
    subst hn
    exact safeNumber_of_defaultsTo _ _ h
  · intro o hn h
    subst hn
    exact safeNumber_of_defaultsTo _ _ h
  · intro o hn h
    subst hn
    exact safeNumber_of_defaultsTo _ _ h
  · intro h1 h2
    simp only [validateSensorData, jsvalOr]
    split <;>
      first
        | exact safeNumber_of_defaultsTo _ _ h1
        | exact safeNumber_of_defaultsTo _ _ h2
  · intro h1 h2
    simp only [validateSensorData, jsvalOr]
    split <;>
      first
        | exact safeNumber_of_defaultsTo _ _ h1
        | exact safeNumber_of_defaultsTo _ _ h2

/-- Witness for `C6_normalizer_defaults` at the all-absent payload: every
field gets its documented fallback and nothing is NaN. -/
theorem C6_normalizer_defaults_witness :
    (validateSensorData emptyPayload "esp32_1" "t0").temperature = .fin 20 ∧
    (validateSensorData emptyPayload "esp32_1" "t0").humidity = .fin 50 ∧
    (validateSensorData emptyPayload "esp32_1" "t0").moisture = .fin 0 ∧
    (validateSensorData emptyPayload "esp32_1" "t0").sunlight = .fin 0 ∧
    (validateSensorData emptyPayload "esp32_1" "t0").nitrogen = .fin 0 ∧
    (validateSensorData emptyPayload "esp32_1" "t0").waterLevel = .fin 0 ∧
    (validateSensorData emptyPayload "esp32_1" "t0").fertilizerLevel = .fin 0 ∧
    noNan (validateSensorData emptyPayload "esp32_1" "t0") = true := by
  have h := C6_normalizer_defaults emptyPayload "esp32_1" "t0"
  exact ⟨h.2.1 rfl, h.2.2.1 rfl, h.2.2.2.1 rfl rfl rfl,
    h.2.2.2.2.1 rfl rfl rfl, h.2.2.2.2.2.1 rfl rfl,
    h.2.2.2.2.2.2.2.2.2.2.2.1 rfl rfl, h.2.2.2.2.2.2.2.2.2.2.2.2 rfl rfl, h.1⟩

/-- C7 counterexample: with `waterLevelPercent` present and equal to 0,
the normalizer takes the water level from the legacy `waterLevel` field
(42) instead of the present percentage-named field (0): the `||` chain
tests truthiness, not presence. -/
theorem C7_counterexample :
    (validateSensorData zeroPercentPayload "esp32_1" "t0").waterLevel =
      JSNum.fin 42 ∧ JSNum.fin 42 ≠ JSNum.fin 0 := by
  decide

/-- C7 (amended): moisture follows the claimed presence-based chain
(`moisture_percent`, else `soil_moisture_percent`, else raw `moisture`,
else 0 — a present field wins even when its value is 0), but water and
fertilizer levels follow a truthiness-based chain: the percentage-named
field wins only when truthy, so a present value of 0 (or an empty string
or null) falls through to the legacy-named field, else 0. -/
theorem C7_resolution_order (p : RawPayload) (dev t : String) :
    (validateSensorData p dev t).moisture =
      firstPresentChain
        [p.moisture_percent, p.soil_moisture_percent, p.moisture] ∧
    (validateSensorData p dev t).waterLevel =
      truthyFirst p.waterLevelPercent p.waterLevel ∧
    (validateSensorData p dev t).fertilizerLevel =
      truthyFirst p.fertilizer_level p.fertilizerLevel := by
  obtain ⟨npk, nit, phos, pot, mp, smp, moi, lx, ll, ld, temp, hum, wlp, wl,
    fl, fert, ts⟩ := p
  refine ⟨?_, ?_, ?_⟩
  · cases mp <;> cases smp <;> cases moi <;> rfl
  · show safeNumber (jsvalOr wlp wl) 0 = truthyFirst wlp wl
    rw [jsvalOr, truthyFirst]
    split <;> rfl
  · show safeNumber (jsvalOr fl fert) 0 = truthyFirst fl fert
    rw [jsvalOr, truthyFirst]
    split <;> rfl

/-- Lookup after an association-list update. -/
theorem assocGet?_assocSet {α : Type} (m : List (String × α)) (k k' : String)
    (v : α) :
    assocGet? (assocSet m k v) k' =
      if k = k' then some v else assocGet? m k' := by
  induction m with
  | nil =>
    simp only [assocSet, assocGet?]
  | cons p t ih =>
    obtain ⟨k0, v0⟩ := p
    by_cases h0 : k0 = k
    · subst h0
      by_cases h1 : k0 = k'
      · subst h1
        simp [assocSet, assocGet?]
      · simp [assocSet, assocGet?, h1]
    · by_cases h1 : k0 = k'
      · subst h1
        simp only [assocSet, if_neg h0, assocGet?, if_pos rfl]
        have : ¬k = k0 := fun h => h0 h.symm
        simp [this]
      · simp [assocSet, assocGet?, h0, h1, ih]

/-- Dropping strictly fewer elements than the length preserves the last
element. -/
theorem getLast?_drop_of_lt {α : Type} :
    ∀ (l : List α) (n : ℕ), n < l.length →
      (l.drop n).getLast? = l.getLast?
  | _, 0, _ => by simp
  | [], n + 1, h => by simp at h
  | a :: t, n + 1, h => by
    have ht : n < t.length := by simpa using h
    have ih := getLast?_drop_of_lt t n ht
    rw [List.drop_succ_cons, ih]
    cases t with
    | nil => simp at ht
    | cons b t' => rw [List.getLast?_cons_cons]

/-- C10: processing any `dataUpdate` event preserves the invariant that
every plant's historical buffer holds at most 100 readings (on overflow
the oldest entries are dropped and the newly validated reading stays the
most recent element), and `getHistoricalData` totally returns a list —
the empty list when the active plant has no buffer. -/
theorem C10_historical_bound (st : HistState) (u : DataUpdate) (now : String)
    (hpre : ∀ k l, assocGet? st.historicalData k = some l → l.length ≤ 100) :
    (∀ k l, assocGet? (processDataUpdate st u now).historicalData k = some l →
      l.length ≤ 100) ∧
    (∀ k, (getHistoricalData (processDataUpdate st u now) k).length ≤ 100) ∧
    (∀ k, assocGet? st.historicalData k = none → getHistoricalData st k = []) ∧
    (∀ devId d, u.deviceId = some devId → u.data = some d →
      ∃ l, assocGet? (processDataUpdate st u now).historicalData
          (u.plantType.getD
            (if devId = "esp32_1" then "level1" else "level2")) = some l ∧
        l.getLast? = some (validateSensorData d devId now)) := by
  have hmain : ∀ k l,
      assocGet? (processDataUpdate st u now).historicalData k = some l →
      l.length ≤ 100 := by
    intro k l hl
    match hu1 : u.deviceId, hu2 : u.data with
    | none, _ =>
      rw [processDataUpdate, hu1] at hl
      exact hpre k l hl
    | some devId, none =>
      rw [processDataUpdate, hu1, hu2] at hl
      exact hpre k l hl
    | some devId, some d =>
      rw [processDataUpdate, hu1, hu2] at hl
      simp only at hl
      rw [assocGet?_assocSet] at hl
      set pt := u.plantType.getD
        (if devId = "esp32_1" then "level1" else "level2") with hpt
      by_cases hk : pt = k
      · rw [if_pos hk] at hl
        obtain rfl : _ = l := Option.some_injective _ hl
        set existing := (assocGet? st.historicalData pt).getD [] with hex
        have hexLen : existing.length ≤ 100 := by
          rcases hget : assocGet? st.historicalData pt with _ | l0
          · simp [hex, hget]
          · have := hpre pt l0 hget
            simpa [hex, hget]
        split
        · rename_i hgt
          rw [List.length_drop]
          omega
        · rename_i hle
          simp only [not_lt] at hle
          omega
      · rw [if_neg hk] at hl
        exact hpre k l hl
  refine ⟨hmain, ?_, ?_, ?_⟩
  · intro k
    rcases hget : assocGet? (processDataUpdate st u now).historicalData k
      with _ | l0
    · simp [getHistoricalData, hget]
    · have := hmain k l0 hget
      simpa [getHistoricalData, hget]
  · intro k hk
    simp [getHistoricalData, hk]
  · intro devId d hu1 hu2
    rw [processDataUpdate, hu1, hu2]
    simp only
    rw [assocGet?_assocSet, if_pos rfl]
    refine ⟨_, rfl, ?_⟩
    set existing := (assocGet? st.historicalData
      (u.plantType.getD
        (if devId = "esp32_1" then "level1" else "level2"))).getD []
      with hex
    have hconcat : (existing ++ [validateSensorData d devId now]).getLast? =
        some (validateSensorData d devId now) := by
      simp
    split
    · rename_i hgt
      rw [getLast?_drop_of_lt _ _ (by simp; omega), hconcat]
    · exact hconcat

/-- Witness for `C10_historical_bound`: from the empty service state, one
concrete `dataUpdate` for `esp32_1` leaves the level1 buffer within the
100-reading bound. -/
theorem C10_historical_bound_witness :
    (getHistoricalData
        (processDataUpdate { currentSensorData := [], historicalData := [] }
          { deviceId := some "esp32_1", data := some emptyPayload,
            plantType := none }
          "t0")
        "level1").length ≤ 100 := by
  have h := C10_historical_bound
    { currentSensorData := [], historicalData := [] }
    { deviceId := some "esp32_1", data := some emptyPayload,
      plantType := none }
    "t0"
    (by intro k l hl; simp [assocGet?] at hl)
  exact h.2.1 "level1"

/-- Lookup after one bucket update: the touched key accumulates the value
and increments its count; other keys are untouched. -/
theorem bGet_addPoint (b : List (Int × ℚ × ℕ)) (k0 : Int) (v : ℚ) :
    ∀ k, bGet (addPoint b k0 v) k =
      if k = k0 then ((bGet b k0).1 + v, (bGet b k0).2 + 1) else bGet b k := by
  induction b with
  | nil =>
    intro k
    by_cases h : k = k0
    · subst h
      simp [addPoint, bGet]
    · simp [addPoint, bGet, h, Ne.symm h]
  | cons e t ih =>
    obtain ⟨k1, s1, c1⟩ := e
    intro k
    by_cases h1 : k1 = k0
    · subst h1
      by_cases h2 : k = k1
      · subst h2
        simp [addPoint, bGet]
      · simp [addPoint, bGet, h2, Ne.symm h2]
    · by_cases h2 : k1 = k
      · subst h2
        have hk : ¬k1 = k0 := h1
        simp [addPoint, bGet, h1, Ne.symm h1, hk]
      · simp [addPoint, bGet, h1, h2, ih k]

/-- The key list after one bucket update: unchanged when the key exists,
otherwise the new key is appended at the end (JavaScript `Map` insertion
order). -/
theorem bKeys_addPoint (b : List (Int × ℚ × ℕ)) (k0 : Int) (v : ℚ) :
    bKeys (addPoint b k0 v) =
      if k0 ∈ bKeys b then bKeys b else bKeys b ++ [k0] := by
  induction b with
  | nil => simp [addPoint, bKeys]
  | cons e t ih =>
    obtain ⟨k1, s1, c1⟩ := e
    by_cases h1 : k1 = k0
    · subst h1
      simp [addPoint, bKeys]
    · have hne : ¬k0 = k1 := fun h => h1 h.symm
      have hstep : addPoint ((k1, s1, c1) :: t) k0 v =
          (k1, s1, c1) :: addPoint t k0 v := by simp [addPoint, h1]
      rw [hstep]
      have hk : bKeys ((k1, s1, c1) :: addPoint t k0 v) =
          k1 :: bKeys (addPoint t k0 v) := rfl
      have hk2 : bKeys ((k1, s1, c1) :: t) = k1 :: bKeys t := rfl
      rw [hk, hk2, ih]
      by_cases hmem : k0 ∈ bKeys t
      · simp [hmem, List.mem_cons, hne]
      · simp [hmem, List.mem_cons, hne]

/-- Bucket updates preserve distinctness of the keys. -/
theorem nodup_bKeys_addPoint (b : List (Int × ℚ × ℕ)) (k0 : Int) (v : ℚ)
    (hb : (bKeys b).Nodup) : (bKeys (addPoint b k0 v)).Nodup := by
  rw [bKeys_addPoint]
  by_cases hmem : k0 ∈ bKeys b
  · simpa [hmem]
  · simp only [hmem, if_false]
    rw [List.nodup_append]
    refine ⟨hb, List.nodup_singleton k0, ?_⟩
    intro a ha hcontra
    rw [List.mem_singleton] at hcontra
    exact hmem (hcontra ▸ ha)

/-- With distinct keys, membership of an entry determines the lookup. -/
theorem bGet_of_mem (b : List (Int × ℚ × ℕ)) (k : Int) (s : ℚ) (c : ℕ)
    (hnd : (bKeys b).Nodup) (hmem : (k, s, c) ∈ b) : bGet b k = (s, c) := by
  induction b with
  | nil => simp at hmem
  | cons e t ih =>
    obtain ⟨k1, s1, c1⟩ := e
    have hnd' : (k1 :: bKeys t).Nodup := hnd
    have hsplit := List.nodup_cons.mp hnd'
    rcases List.mem_cons.mp hmem with heq | hmem'
    · have hk : k = k1 := congrArg Prod.fst heq
      have hs : s = s1 := congrArg (fun x => x.2.1) heq
      have hc : c = c1 := congrArg (fun x => x.2.2) heq
      subst hk
      subst hs
      subst hc
      simp [bGet]
    · have hkmem : k ∈ bKeys t := List.mem_map_of_mem (fun x => x.1) hmem'
      have hne : ¬k1 = k := fun h => hsplit.1 (h ▸ hkmem)
      rw [bGet, if_neg hne]
      exact ih hsplit.2 hmem'

/-- Bucket count of a cons. -/
theorem bucketCount_cons (p : RawPoint) (raw : List RawPoint) (k : Int) :
    bucketCount (p :: raw) k =
      (if inBucket k p then 1 else 0) + bucketCount raw k := by
  rw [bucketCount, bucketCount, List.filter_cons]
  split
  · simp [Nat.add_comm]
  · simp

/-- Bucket sum of a cons. -/
theorem bucketSum_cons (p : RawPoint) (raw : List RawPoint) (k : Int) :
    bucketSum (p :: raw) k =
      (if inBucket k p then p.value else 0) + bucketSum raw k := by
  rw [bucketSum, bucketSum, List.filter_cons]
  split <;> simp

/-- A skipped (unparseable) point lies in no bucket. -/
theorem inBucket_none (p : RawPoint) (hp : p.timestamp = none) (k : Int) :
    inBucket k p = false := by
  simp [inBucket, hp]

/-- A parseable point lies exactly in the bucket of its key. -/
theorem inBucket_some (p : RawPoint) (t : Int) (hp : p.timestamp = some t)
    (k : Int) : inBucket k p = decide (bucketKeyOf t = k) := by
  by_cases h : bucketKeyOf t = k <;> simp [inBucket, hp, h]

/-- Invariant of the whole `forEach` fold: starting from a bucket map with
distinct keys, keys stay distinct, every key's running sum and count grow
by exactly the bucket sum and bucket count of the processed points, and a
key is present exactly when it was present before or some processed point
falls in it. -/
theorem fillBuckets_fold (raw : List RawPoint) :
    ∀ b : List (Int × ℚ × ℕ), (bKeys b).Nodup →
      (bKeys (raw.foldl bucketStep b)).Nodup ∧
      (∀ k, bGet (raw.foldl bucketStep b) k =
        ((bGet b k).1 + bucketSum raw k, (bGet b k).2 + bucketCount raw k)) ∧
      (∀ k, k ∈ bKeys (raw.foldl bucketStep b) ↔
        k ∈ bKeys b ∨ bucketCount raw k ≠ 0) := by
  induction raw with
  | nil =>
    intro b hb
    refine ⟨hb, ?_, ?_⟩
    · intro k
      simp [bucketSum, bucketCount]
    · intro k
      simp [bucketCount]
  | cons p raw' ih =>
    intro b hb
    rcases hp : p.timestamp with _ | t
    · have hstep : bucketStep b p = b := by simp [bucketStep, hp]
      have hfold : (p :: raw').foldl bucketStep b = raw'.foldl bucketStep b := by
        rw [List.foldl_cons, hstep]
      obtain ⟨ih1, ih2, ih3⟩ := ih b hb
      refine ⟨hfold ▸ ih1, ?_, ?_⟩
      · intro k
        rw [hfold, ih2 k, bucketSum_cons, bucketCount_cons,
          inBucket_none p hp]
        simp
      · intro k
        rw [hfold, ih3 k, bucketCount_cons, inBucket_none p hp]
        simp
    · have hstep : bucketStep b p = addPoint b (bucketKeyOf t) p.value := by
        simp [bucketStep, hp]
      have hfold : (p :: raw').foldl bucketStep b =
          raw'.foldl bucketStep (addPoint b (bucketKeyOf t) p.value) := by
        rw [List.foldl_cons, hstep]
      obtain ⟨ih1, ih2, ih3⟩ := ih (addPoint b (bucketKeyOf t) p.value)
        (nodup_bKeys_addPoint b (bucketKeyOf t) p.value hb)
      refine ⟨hfold ▸ ih1, ?_, ?_⟩
      · intro k
        rw [hfold, ih2 k, bGet_addPoint b (bucketKeyOf t) p.value k,
          bucketSum_cons, bucketCount_cons, inBucket_some p t hp]
        by_cases hk : k = bucketKeyOf t
        · subst hk
          simp [add_assoc]
        · have hne : ¬(bucketKeyOf t = k) := fun h => hk h.symm
          simp [hk, hne]
      · intro k
        rw [hfold, ih3 k, bucketCount_cons, inBucket_some p t hp]
        have hmem : k ∈ bKeys (addPoint b (bucketKeyOf t) p.value) ↔
            k ∈ bKeys b ∨ k = bucketKeyOf t := by
          rw [bKeys_addPoint]
          by_cases hmemb : bucketKeyOf t ∈ bKeys b
          · simp only [if_pos hmemb]
            constructor
            · intro h
              exact Or.inl h
            · rintro (h | rfl)
              · exact h
              · exact hmemb
          · simp [if_neg hmemb, List.mem_append]
        rw [hmem]
        by_cases hk : k = bucketKeyOf t
        · subst hk
          simp
        · have hne : ¬(bucketKeyOf t = k) := fun h => hk h.symm
          simp [hk, hne]

/-- The filled bucket map of a raw sequence: distinct keys, each key's
entry is the bucket sum and bucket count over the inputs, and a key is
present exactly when its bucket is non-empty. -/
theorem fillBuckets_spec (raw : List RawPoint) :
    (bKeys (fillBuckets raw)).Nodup ∧
    (∀ k, bGet (fillBuckets raw) k = (bucketSum raw k, bucketCount raw k)) ∧
    (∀ k, k ∈ bKeys (fillBuckets raw) ↔ bucketCount raw k ≠ 0) := by
  obtain ⟨h1, h2, h3⟩ := fillBuckets_fold raw [] (by simp [bKeys])
  refine ⟨h1, ?_, ?_⟩
  · intro k
    have := h2 k
    simpa [bGet] using this
  · intro k
    have := h3 k
    simpa [bKeys] using this

/-- Every entry of the filled bucket map carries exactly its bucket's sum
and its bucket's (positive) count. -/
theorem fillBuckets_entry (raw : List RawPoint) (e : Int × ℚ × ℕ)
    (he : e ∈ fillBuckets raw) :
    e.2.1 = bucketSum raw e.1 ∧ e.2.2 = bucketCount raw e.1 ∧ e.2.2 ≠ 0 := by
  obtain ⟨hnd, hget, hkeys⟩ := fillBuckets_spec raw
  obtain ⟨k, s, c⟩ := e
  have hk : k ∈ bKeys (fillBuckets raw) :=
    List.mem_map_of_mem (fun x => x.1) he
  have hbg : bGet (fillBuckets raw) k = (s, c) :=
    bGet_of_mem (fillBuckets raw) k s c hnd he
  rw [hget k] at hbg
  have hs : bucketSum raw k = s := congrArg Prod.fst hbg
  have hc : bucketCount raw k = c := congrArg Prod.snd hbg
  exact ⟨hs.symm, hc.symm, fun h => (hkeys k).mp hk (hc ▸ h)⟩

/-- Membership in an ordered insertion. -/
theorem mem_insertPoint (p q : AveragedDataPoint)
    (l : List AveragedDataPoint) :
    q ∈ insertPoint p l ↔ q = p ∨ q ∈ l := by
  induction l with
  | nil => simp [insertPoint]
  | cons a t ih =>
    simp only [insertPoint]
    split
    · simp [List.mem_cons]
    · simp only [List.mem_cons, ih]
      tauto

/-- Ordered insertion grows the length by one. -/
theorem length_insertPoint (p : AveragedDataPoint)
    (l : List AveragedDataPoint) :
    (insertPoint p l).length = l.length + 1 := by
  induction l with
  | nil => rfl
  | cons a t ih =>
    simp only [insertPoint]
    split <;> simp [ih]

/-- Ordered insertion preserves sortedness by bucket timestamp. -/
theorem pairwise_insertPoint (p : AveragedDataPoint)
    (l : List AveragedDataPoint)
    (hl : l.Pairwise (fun a b => a.timestamp ≤ b.timestamp)) :
    (insertPoint p l).Pairwise (fun a b => a.timestamp ≤ b.timestamp) := by
  induction l with
  | nil => simp [insertPoint]
  | cons a t ih =>
    rcases hl with _ | ⟨ha, ht⟩
    simp only [insertPoint]
    split
    · rename_i hpa
      refine List.Pairwise.cons ?_ (List.Pairwise.cons ha ht)
      intro b hb
      rcases List.mem_cons.mp hb with rfl | hbt
      · exact hpa
      · exact le_trans hpa (ha b hbt)
    · rename_i hpa
      refine List.Pairwise.cons ?_ (ih ht)
      intro b hb
      rcases (mem_insertPoint p b t).mp hb with rfl | hbt
      · exact le_of_lt (lt_of_not_le hpa)
      · exact ha b hbt

/-- The sort step permutes nothing in and nothing out: membership is
preserved. -/
theorem mem_sortPoints (q : AveragedDataPoint) (l : List AveragedDataPoint) :
    q ∈ sortPoints l ↔ q ∈ l := by
  induction l with
  | nil => simp [sortPoints]
  | cons a t ih =>
    simp only [sortPoints, mem_insertPoint, List.mem_cons, ih]

/-- The sort step preserves the length. -/
theorem length_sortPoints (l : List AveragedDataPoint) :
    (sortPoints l).length = l.length := by
  induction l with
  | nil => rfl
  | cons a t ih =>
    simp only [sortPoints, length_insertPoint, ih, List.length_cons]

/-- The sort step sorts (ascending by bucket timestamp). -/
theorem pairwise_sortPoints (l : List AveragedDataPoint) :
    (sortPoints l).Pairwise (fun a b => a.timestamp ≤ b.timestamp) := by
  induction l with
  | nil => simp [sortPoints]
  | cons a t ih => exact pairwise_insertPoint a (sortPoints t) ih

/-- Unparseable points are invisible to the bucket fold. -/
theorem foldl_bucketStep_filter (raw : List RawPoint) :
    ∀ b, (raw.filter fun p => p.timestamp.isSome).foldl bucketStep b =
      raw.foldl bucketStep b := by
  induction raw with
  | nil => intro b; rfl
  | cons p raw' ih =>
    intro b
    rcases hp : p.timestamp with _ | t
    · have hf : (p :: raw').filter (fun p => p.timestamp.isSome) =
          raw'.filter fun p => p.timestamp.isSome := by
        simp [List.filter_cons, hp]
      have hstep : bucketStep b p = b := by simp [bucketStep, hp]
      rw [hf, List.foldl_cons, hstep, ih b]
    · have hf : (p :: raw').filter (fun p => p.timestamp.isSome) =
          p :: raw'.filter fun p => p.timestamp.isSome := by
        simp [List.filter_cons, hp]
      rw [hf, List.foldl_cons, List.foldl_cons, ih (bucketStep b p)]

/-- C5: for every finite input sequence, the aggregation output is sorted
ascending by bucket timestamp, contains at most 60 points, each output
point's count is exactly the number of inputs whose parsed timestamp falls
in its 5-minute bucket (and is positive), its value is the arithmetic mean
(bucket sum divided by that count) of those inputs, empty input yields
empty output, and unparseably-timestamped points are skipped without
failing (the output only depends on the parseable points). -/
theorem C5_aggregate (raw : List RawPoint) :
    List.Pairwise (fun a b => a.timestamp ≤ b.timestamp)
      (averageDataPoints raw) ∧
    (averageDataPoints raw).length ≤ 60 ∧
    (∀ p ∈ averageDataPoints raw,
      p.count = bucketCount raw p.timestamp ∧ 0 < p.count ∧
      p.value = bucketSum raw p.timestamp / (p.count : ℚ)) ∧
    averageDataPoints ([] : List RawPoint) = [] ∧
    averageDataPoints raw =
      averageDataPoints (raw.filter fun p => p.timestamp.isSome) := by
  have hdef : averageDataPoints raw =
      (sortPoints ((fillBuckets raw).map fun e =>
        { timestamp := e.1,
          value := if e.2.2 > 0 then e.2.1 / (e.2.2 : ℚ) else 0,
          count := e.2.2 })).drop
        ((sortPoints ((fillBuckets raw).map fun e =>
          { timestamp := e.1,
            value := if e.2.2 > 0 then e.2.1 / (e.2.2 : ℚ) else 0,
            count := e.2.2 })).length - 60) := rfl
  refine ⟨?_, ?_, ?_, rfl, ?_⟩
  · rw [hdef]
    exact List.Pairwise.sublist (List.drop_sublist _ _) (pairwise_sortPoints _)
  · rw [hdef, List.length_drop]
    omega
  · intro p hp
    rw [hdef] at hp
    have hp1 := (List.drop_sublist _ _).subset hp
    have hp2 := (mem_sortPoints p _).mp hp1
    obtain ⟨e, he, rfl⟩ := List.mem_map.mp hp2
    obtain ⟨hs, hc, hcne⟩ := fillBuckets_entry raw e he
    have hpos : 0 < e.2.2 := Nat.pos_of_ne_zero hcne
    refine ⟨hc, hpos, ?_⟩
    show (if e.2.2 > 0 then e.2.1 / (e.2.2 : ℚ) else 0) = _
    rw [if_pos hpos, hs, hc]
  · have hfb : fillBuckets (raw.filter fun p => p.timestamp.isSome) =
        fillBuckets raw := foldl_bucketStep_filter raw []
    simp only [averageDataPoints, hfb]

/-- Witness for `C5_aggregate`: the two-point sample aggregates to the
single bucket point `{timestamp := 0, value := 15, count := 2}`, and the
theorem instantiated there certifies its count and mean. -/
theorem C5_aggregate_witness :
    averageDataPoints rawSample =
      [{ timestamp := 0, value := 15, count := 2 }] ∧
    ({ timestamp := 0, value := 15, count := 2 } : AveragedDataPoint).count =
      bucketCount rawSample 0 ∧
    ({ timestamp := 0, value := 15, count := 2 } : AveragedDataPoint).value =
      bucketSum rawSample 0 / ((2 : ℕ) : ℚ) := by
  have h1 : bucketKeyOf 10000 = 0 := by decide
  have h2 : bucketKeyOf 60000 = 0 := by decide
  have heval : averageDataPoints rawSample =
      [{ timestamp := 0, value := 15, count := 2 }] := by
    norm_num [rawSample, averageDataPoints, fillBuckets, bucketStep, addPoint,
      h1, h2, sortPoints, insertPoint]
  have hmem : ({ timestamp := 0, value := 15, count := 2 } :
      AveragedDataPoint) ∈ averageDataPoints rawSample := by
    rw [heval]
    exact List.mem_singleton.mpr rfl
  have h := (C5_aggregate rawSample).2.2.1 _ hmem
  exact ⟨heval, h.1, h.2.2⟩

/-- C9: for every burst of N ≥ 1 `data` events whose consecutive arrival
instants are less than 30 seconds apart, exactly one chart recomputation
fires, exactly 30 seconds after the last event of the burst (each event
first cancels the pending timer, then reschedules; only the timer armed by
the final event ever fires). -/
theorem C9_debounce_burst (t0 : Int) (ts : List Int)
    (h : List.Chain (fun a b => a ≤ b ∧ b - a < debounceWindow) t0 ts) :
    debounceRun (t0 :: ts) =
      [(t0 :: ts).getLast (List.cons_ne_nil _ _) + debounceWindow] := by
  unfold debounceRun
  rw [List.foldl_cons]
  have h1 : handleDataUpdate { pending := none, fired := [] } t0 =
      { pending := some (t0 + debounceWindow), fired := [] } := rfl
  rw [h1, debounce_fold_quiet ts t0 [] h]
  simp

/-- Witness for `C9_debounce_burst`: a burst of three events at 0s, 10s
and 20s yields exactly one recomputation, at 50s (30s after the last
event). -/
theorem C9_debounce_burst_witness : debounceRun [0, 10000, 20000] = [50000] := by
  have hch : List.Chain (fun a b => a ≤ b ∧ b - a < debounceWindow) 0
      [10000, 20000] :=
    List.Chain.cons ⟨by norm_num, by norm_num [debounceWindow]⟩
      (List.Chain.cons ⟨by norm_num, by norm_num [debounceWindow]⟩
        List.Chain.nil)
  have h := C9_debounce_burst 0 [10000, 20000] hch
  simpa using h
